import Mathlib

/-!
# Phoenix dashboard — verification of the signal-scoring pipeline

Shallow embedding of the scoring / thresholding logic of `src/app.py`
(`create_heatmap_figure`).  Real-valued samples are modelled as rationals;
a pandas `Series` cell is `Option ℚ` (`none` models `NaN` / a missing value).

The pandas primitive `Series.rolling(window=w, center=True, min_periods=1)`
computes, for every row `i` of a length-`n` series, the row window
`[i + (w-1)/2 + 1 - w, i + (w-1)/2]` clipped to `[0, n-1]` (integer division;
this is the pandas `FixedWindowIndexer` with `center=True`), and reduces the
non-missing values in that window, yielding `NaN` when there are none
(`min_periods=1`).
-/

/-- A pandas Series cell: `none` is `NaN`/missing. -/
abbrev Series := List (Option ℚ)

/-- First row index of the centered rolling window at position `i`
(window width `w`); `Nat` subtraction performs the clip at `0`. -/
def winLo (w i : Nat) : Nat := i + (w - 1) / 2 + 1 - w

/-- Last row index of the centered rolling window at position `i` in a
length-`n` series: clipped at `n - 1`. -/
def winHi (w n i : Nat) : Nat := min (n - 1) (i + (w - 1) / 2)

/-- The (in-bounds) row indices of the centered rolling window at `i`. -/
def windowIdx (w n i : Nat) : List Nat :=
  List.range' (winLo w i) (winHi w n i + 1 - winLo w i)

/-- The non-missing values inside the rolling window at position `i`. -/
def windowVals (w : Nat) (xs : Series) (i : Nat) : List ℚ :=
  (windowIdx w xs.length i).filterMap (fun j => xs.getD j none)

/-- Embeds `xs.rolling(window=w, center=True, min_periods=1).sum()`. -/
def rollingSum (w : Nat) (xs : Series) : Series :=
  (List.range xs.length).map (fun i =>
    let vs := windowVals w xs i
    if vs.isEmpty then none else some vs.sum)

/-- Embeds `xs.rolling(window=w, center=True, min_periods=1).mean()`. -/
def rollingMean (w : Nat) (xs : Series) : Series :=
  (List.range xs.length).map (fun i =>
    let vs := windowVals w xs i
    if vs.isEmpty then none else some (vs.sum / vs.length))

/-- Median of a list of rationals: sort, take the middle element (odd length)
or the mean of the two middle elements (even length) — the interpolation used
by the pandas rolling median. -/
def medianOf (l : List ℚ) : ℚ :=
  let s := l.insertionSort (· ≤ ·)
  if l.length % 2 = 1 then s.getD (l.length / 2) 0
  else (s.getD (l.length / 2 - 1) 0 + s.getD (l.length / 2) 0) / 2

/-- Embeds `xs.rolling(window=w, center=True, min_periods=1).median()`. -/
def rollingMedian (w : Nat) (xs : Series) : Series :=
  (List.range xs.length).map (fun i =>
    let vs := windowVals w xs i
    if vs.isEmpty then none else some (medianOf vs))

/-- Embeds `series.fillna(0)`. -/
def fillna0 (xs : Series) : List ℚ := xs.map (fun o => o.getD 0)

/-- Elementwise division of a series by a scalar (`series / c`);
`NaN` stays `NaN`. -/
def seriesDiv (xs : Series) (c : ℚ) : Series := xs.map (Option.map (· / c))

/-- The `mws` branch: the `Predictions` column run through
`rolling(window=85,center=True,min_periods=1).sum()/85`, then `fillna(0)`
(app.py lines 302-303). -/
def mwsScore (xs : Series) : List ℚ := fillna0 (seriesDiv (rollingSum 85 xs) 85)

/-- The `mwa` branch: the `Predictions` column run through
`rolling(window=70,center=True,min_periods=1).mean()`, then `fillna(0)`
(app.py lines 308-309). -/
def mwaScore (xs : Series) : List ℚ := fillna0 (rollingMean 70 xs)

/-- The `median` branch: the `Predictions` column run through
`rolling(window=60,center=True,min_periods=1).median()`, then `fillna(0)`
(app.py lines 324-325). -/
def medianScore (xs : Series) : List ℚ := fillna0 (rollingMedian 60 xs)

/-- Embeds the comprehension putting 1 where the score column strictly
exceeds the threshold and 0 elsewhere (app.py lines 304, 310, 326). -/
def predictedInterval (score : List ℚ) (t : ℚ) : List ℚ :=
  score.map (fun x => if t < x then 1 else 0)

/-- The columns of a per-genome `processed_<accession>_combined.csv` after the
`df.rename` of app.py lines 271-282 (intended schema; the `rle`, `dbscan` and
`ccl` branches read the renamed precomputed columns). -/
structure DataFrame where
  predictions : Series
  dnabert2 : Series
  grover : Series
  reference : Series
  gc : Series
  medianCol : Series
  mwaCol : Series
  rleCol : Series
  dbscanCol : Series
  cclCol : Series
  windowSumCol : Series
deriving DecidableEq

/-- Result of `create_heatmap_figure`, reduced to the data that determines the
plot: the dataset-not-found placeholder (annotated with its message, app.py
lines 258-266), the generic error placeholder built by the `except` handler
(lines 447-455), or a real figure carrying the seven plotted traces and the
threshold line. -/
inductive Fig
  | notFound (message : String)
  | generic
  | traces (reference predInterval gc algo preds dnabert2 grover : Series)
      (threshold : ℚ)
deriving DecidableEq

/-- The `algorithm` branch of app.py lines 301-331: returns the `algo` and
`predicted_interval` columns it adds, or `none` when the algorithm matches no
branch and the columns stay absent. -/
def algoBranch (df : DataFrame) (thresholdValue : ℚ) (algorithm : String) :
    Option (Series × Series) :=
  if algorithm = "mws" then
    let s := mwsScore df.predictions
    some (s.map some, (predictedInterval s thresholdValue).map some)
  else if algorithm = "mwa" then
    let s := mwaScore df.predictions
    some (s.map some, (predictedInterval s thresholdValue).map some)
  else if algorithm = "rle" then some (df.rleCol, df.rleCol)
  else if algorithm = "dbscan" then some (df.dbscanCol, df.dbscanCol)
  else if algorithm = "median" then
    let s := medianScore df.predictions
    some (s.map some, (predictedInterval s thresholdValue).map some)
  else if algorithm = "ccl" then some (df.cclCol, df.cclCol)
  else none

/-- Embeds `create_heatmap_figure` (app.py lines 249-455).  The filesystem is
abstracted as a map from accession to the parsed `DataFrame` of its backing
csv file (`none`: the `os.path.exists` check fails and the not-found
placeholder is returned).  When no algorithm branch fires, the trace
construction, looking up the `predicted_interval` column (line 345), raises a
`KeyError` that the surrounding `except` catches, producing the generic
placeholder. -/
def createHeatmapFigure (fs : String → Option DataFrame)
    (datasetFilter : String) (taxonFilter : String) (taxonList : List String)
    (accession : String) (thresholdValue : ℚ) (algorithm : String) : Fig :=
  match fs accession with
  | none =>
      .notFound ("Dataset file data/combined/processed_" ++ accession ++
        "_combined.csv not found.")
  | some df =>
      match algoBranch df thresholdValue algorithm with
      | none => .generic
      | some (algoCol, predCol) =>
          .traces df.reference predCol df.gc algoCol df.predictions
            df.dnabert2 df.grover thresholdValue

/-- Indexing a map over `List.range`: the shape shared by all rolling
reductions. -/
theorem map_range_getElem? {α : Type} (f : Nat → α) (n i : Nat) (h : i < n) :
    ((List.range n).map f)[i]? = some (f i) := by
  simp [List.getElem?_map, List.getElem?_range, h]

/-- Pointwise value of the `mws` score: the sum of the non-missing window
values divided by the nominal width 85 — also when the window is all-missing,
since the empty sum is `0` and `fillna(0)` turns the `NaN` into `0`. -/
theorem mwsScore_getElem? (xs : Series) (i : Nat) (h : i < xs.length) :
    (mwsScore xs)[i]? = some ((windowVals 85 xs i).sum / 85) := by
  unfold mwsScore fillna0 seriesDiv rollingSum
  rw [List.getElem?_map, List.getElem?_map, map_range_getElem? _ _ _ h]
  by_cases hE : (windowVals 85 xs i).isEmpty
  · simp [hE, List.isEmpty_iff.mp hE]
  · simp [hE]

/-- Pointwise value of the `mwa` score: the mean of the non-missing window
values (for an all-missing window both `fillna(0)` and `0 / 0 = 0` give `0`,
so the formula is unconditional). -/
theorem mwaScore_getElem? (xs : Series) (i : Nat) (h : i < xs.length) :
    (mwaScore xs)[i]? =
      some ((windowVals 70 xs i).sum / (windowVals 70 xs i).length) := by
  unfold mwaScore fillna0 rollingMean
  rw [List.getElem?_map, map_range_getElem? _ _ _ h]
  by_cases hE : (windowVals 70 xs i).isEmpty
  · simp [hE, List.isEmpty_iff.mp hE]
  · simp [hE]

/-- Applying `medianOf` to the empty list gives `0`, matching `fillna(0)`. -/
theorem medianOf_nil : medianOf [] = 0 := by
  norm_num [medianOf, List.insertionSort]

/-- Pointwise value of the rolling median filled with 0, for any width. -/
theorem medianFilled_getElem? (w : Nat) (xs : Series) (i : Nat)
    (h : i < xs.length) :
    (fillna0 (rollingMedian w xs))[i]? = some (medianOf (windowVals w xs i)) := by
  unfold fillna0 rollingMedian
  rw [List.getElem?_map, map_range_getElem? _ _ _ h]
  by_cases hE : (windowVals w xs i).isEmpty
  · simp [hE, List.isEmpty_iff.mp hE, medianOf_nil]
  · simp [hE]

/-- Pointwise value of the `median` score (width 60). -/
theorem medianScore_getElem? (xs : Series) (i : Nat) (h : i < xs.length) :
    (medianScore xs)[i]? = some (medianOf (windowVals 60 xs i)) :=
  medianFilled_getElem? 60 xs i h

/-- Pointwise value of the thresholded interval. -/
theorem predictedInterval_getElem? (s : List ℚ) (t : ℚ) (i : Nat)
    (h : i < s.length) :
    (predictedInterval s t)[i]? = some (if t < s.getD i 0 then 1 else 0) := by
  unfold predictedInterval
  rw [List.getElem?_map, List.getElem?_eq_getElem h,
    List.getD_eq_getElem?_getD, List.getElem?_eq_getElem h]
  rfl

-- sanity checks against hand-computed pandas behaviour
example : windowIdx 3 5 0 = [0, 1] := by decide
example : windowIdx 3 5 2 = [1, 2, 3] := by decide
example : windowIdx 3 5 4 = [3, 4] := by decide
example : windowIdx 4 10 5 = [3, 4, 5, 6] := by decide
example : windowVals 3 [some 1, some 2, some 3, some 4, some 5] 0 = [1, 2] := by
  norm_num [windowVals, windowIdx, winLo, winHi, List.range', List.filterMap_cons]
example : medianOf [100, 0] = 50 := by
  norm_num [medianOf, List.insertionSort, List.orderedInsert]
example : medianOf [3, 100, 3] = 3 := by
  norm_num [medianOf, List.insertionSort, List.orderedInsert]
example : windowVals 3 [none, none, some 2] 0 = [] := by
  norm_num [windowVals, windowIdx, winLo, winHi, List.range', List.filterMap_cons]

/-- The three score pipelines preserve the series length. -/
theorem mwsScore_length (xs : Series) : (mwsScore xs).length = xs.length := by
  simp [mwsScore, fillna0, seriesDiv, rollingSum]

theorem mwaScore_length (xs : Series) : (mwaScore xs).length = xs.length := by
  simp [mwaScore, fillna0, rollingMean]

theorem medianScore_length (xs : Series) :
    (medianScore xs).length = xs.length := by
  simp [medianScore, fillna0, rollingMedian]

theorem predictedInterval_length (s : List ℚ) (t : ℚ) :
    (predictedInterval s t).length = s.length := by
  simp [predictedInterval]

/-- Thresholding is the strict comparison, pointwise, with equality
resolving to `0`. -/
theorem predInterval_pair (s : List ℚ) (t : ℚ) (i : Nat) (h : i < s.length) :
    (predictedInterval s t)[i]? = some (if t < s.getD i 0 then 1 else 0)
    ∧ (s.getD i 0 = t → (predictedInterval s t)[i]? = some 0) := by
  refine ⟨predictedInterval_getElem? s t i h, fun he => ?_⟩
  rw [predictedInterval_getElem? s t i h, he, if_neg (lt_irrefl t)]

/-- C4: for every input signal and each of the three computed algorithms
(moving-window-sum, moving-window-average, median-filter), the smoothed-score
and predicted-interval outputs each have length exactly that of the signal. -/
theorem output_lengths_eq (xs : Series) (t : ℚ) :
    (mwsScore xs).length = xs.length
    ∧ (predictedInterval (mwsScore xs) t).length = xs.length
    ∧ (mwaScore xs).length = xs.length
    ∧ (predictedInterval (mwaScore xs) t).length = xs.length
    ∧ (medianScore xs).length = xs.length
    ∧ (predictedInterval (medianScore xs) t).length = xs.length := by
  refine ⟨mwsScore_length xs, ?_, mwaScore_length xs, ?_,
    medianScore_length xs, ?_⟩ <;>
    rw [predictedInterval_length] <;>
    [exact mwsScore_length xs; exact mwaScore_length xs;
      exact medianScore_length xs]

/-- C2: for every signal, threshold and each of the three computed algorithms,
`predicted_interval[i] = 1` exactly when the smoothed score strictly exceeds
the threshold, `0` otherwise; in particular a score equal to the threshold
yields `0`. -/
theorem strict_threshold_law (xs : Series) (t : ℚ) (i : Nat)
    (h : i < xs.length) :
    ((predictedInterval (mwsScore xs) t)[i]? =
        some (if t < (mwsScore xs).getD i 0 then 1 else 0)
      ∧ ((mwsScore xs).getD i 0 = t →
          (predictedInterval (mwsScore xs) t)[i]? = some 0))
    ∧ ((predictedInterval (mwaScore xs) t)[i]? =
        some (if t < (mwaScore xs).getD i 0 then 1 else 0)
      ∧ ((mwaScore xs).getD i 0 = t →
          (predictedInterval (mwaScore xs) t)[i]? = some 0))
    ∧ ((predictedInterval (medianScore xs) t)[i]? =
        some (if t < (medianScore xs).getD i 0 then 1 else 0)
      ∧ ((medianScore xs).getD i 0 = t →
          (predictedInterval (medianScore xs) t)[i]? = some 0)) :=
  ⟨predInterval_pair _ t i ((mwsScore_length xs).symm ▸ h),
    predInterval_pair _ t i ((mwaScore_length xs).symm ▸ h),
    predInterval_pair _ t i ((medianScore_length xs).symm ▸ h)⟩

/-- Witness for C2 at the one-sample signal `[1]` with threshold `0`. -/
theorem strict_threshold_law_witness :
    (predictedInterval (mwsScore [some 1]) 0)[0]? =
      some (if 0 < (mwsScore [some 1]).getD 0 0 then 1 else 0) :=
  (strict_threshold_law [some 1] 0 0 (by decide)).1.1

/-- C9: the figure produced by `create_heatmap_figure` depends only on the
accession, threshold and algorithm (and the dataset file contents); the
`dataset_filter`, `taxon_filter` and `taxon_list` arguments are never read. -/
theorem figure_ignores_filter_args (fs : String → Option DataFrame)
    (d₁ d₂ tf₁ tf₂ : String) (tl₁ tl₂ : List String)
    (accession : String) (t : ℚ) (alg : String) :
    createHeatmapFigure fs d₁ tf₁ tl₁ accession t alg =
      createHeatmapFigure fs d₂ tf₂ tl₂ accession t alg := rfl

/-- C8: when the requested accession has no backing dataset file, the function
returns the dataset-not-found placeholder figure naming the missing file, and
never an unhandled failure (the embedding is a total function). -/
theorem missing_file_placeholder (fs : String → Option DataFrame)
    (d tf : String) (tl : List String) (accession : String) (t : ℚ)
    (alg : String) (h : fs accession = none) :
    createHeatmapFigure fs d tf tl accession t alg =
      .notFound ("Dataset file data/combined/processed_" ++ accession ++
        "_combined.csv not found.") := by
  unfold createHeatmapFigure
  rw [h]

/-- Witness for C8: an empty filesystem and a concrete accession. -/
theorem missing_file_placeholder_witness :
    createHeatmapFigure (fun _ => none) "Phoenix" "no_filter" []
        "GCF_000005845" (4/10) "mws" =
      .notFound ("Dataset file data/combined/processed_" ++ "GCF_000005845" ++
        "_combined.csv not found.") :=
  missing_file_placeholder (fun _ => none) "Phoenix" "no_filter" []
    "GCF_000005845" (4/10) "mws" rfl

/-- C10: for an algorithm string matching none of the six branches, no
`algo`/`predicted_interval` column is computed, the trace construction fails,
and the caught failure yields the generic error placeholder. -/
theorem unknown_algorithm_generic (fs : String → Option DataFrame)
    (df : DataFrame) (d tf : String) (tl : List String) (accession : String)
    (t : ℚ) (alg : String) (hfs : fs accession = some df)
    (halg : alg ∉ (["mws", "mwa", "rle", "dbscan", "median", "ccl"] :
      List String)) :
    createHeatmapFigure fs d tf tl accession t alg = .generic := by
  simp only [List.mem_cons, List.mem_singleton, not_or] at halg
  obtain ⟨h1, h2, h3, h4, h5, h6, -⟩ := halg
  unfold createHeatmapFigure
  rw [hfs]
  simp [algoBranch, h1, h2, h3, h4, h5, h6]

/-- Witness for C10: a dataframe of empty columns and the algorithm "foo". -/
theorem unknown_algorithm_generic_witness :
    createHeatmapFigure
        (fun s => if s = "acc" then
          some ⟨[], [], [], [], [], [], [], [], [], [], []⟩ else none)
        "Phoenix" "no_filter" [] "acc" (4/10) "foo" = .generic :=
  unknown_algorithm_generic _ ⟨[], [], [], [], [], [], [], [], [], [], []⟩
    "Phoenix" "no_filter" [] "acc" (4/10) "foo" (by simp) (by simp)

/-- A `filterMap` collapses to `map` when the function is total on the list. -/
theorem filterMap_eq_map_of {α β : Type} (l : List α) (f : α → Option β)
    (g : α → β) (h : ∀ j ∈ l, f j = some (g j)) :
    l.filterMap f = l.map g := by
  induction l with
  | nil => rfl
  | cons a l ih =>
      rw [List.filterMap_cons, h a (List.mem_cons_self a l), List.map_cons,
        ih fun j hj => h j (List.mem_cons_of_mem a hj)]

/-- A map that is constant on the list produces a `replicate`. -/
theorem map_eq_replicate_of {α β : Type} (l : List α) (g : α → β) (v : β)
    (h : ∀ j ∈ l, g j = v) : l.map g = List.replicate l.length v := by
  refine List.eq_replicate.mpr ⟨by simp, ?_⟩
  intro b hb
  obtain ⟨j, hj, rfl⟩ := List.mem_map.mp hb
  exact h j hj

/-- Window indices are in bounds. -/
theorem mem_windowIdx_lt {w n i j : Nat} (hn : 0 < n)
    (hj : j ∈ windowIdx w n i) : j < n := by
  unfold windowIdx winLo winHi at hj
  rw [List.mem_range'_1] at hj
  omega

/-- The window at `i` contains `i`, for every positive width. -/
theorem self_mem_windowIdx {w n i : Nat} (hw : 0 < w) (hi : i < n) :
    i ∈ windowIdx w n i := by
  unfold windowIdx winLo winHi
  rw [List.mem_range'_1]
  omega

/-- On a constant signal the window values are a `replicate` of the clipped
window size. -/
theorem windowVals_replicate (w n i : Nat) (v : ℚ) (hn : i < n) :
    windowVals w (List.replicate n (some v)) i =
      List.replicate (winHi w n i + 1 - winLo w i) v := by
  unfold windowVals
  rw [List.length_replicate]
  have hmap := filterMap_eq_map_of (windowIdx w n i)
    (fun j => (List.replicate n (some v)).getD j none) (fun _ => v) ?_
  · rw [hmap, map_eq_replicate_of _ _ v (fun _ _ => rfl)]
    unfold windowIdx
    rw [List.length_range']
  · intro j hj
    have hjn : j < n := mem_windowIdx_lt (by omega) hj
    simp [List.getD_eq_getElem?_getD, List.getElem?_replicate, hjn]

/-- C6: for each of the three computed algorithms, a position whose window
holds no present value resolves to the score `0`, and every position of the
output score series is defined (no gaps). -/
theorem no_gaps (xs : Series) (i : Nat) (h : i < xs.length) :
    ((windowVals 85 xs i = [] → (mwsScore xs)[i]? = some 0)
      ∧ (windowVals 70 xs i = [] → (mwaScore xs)[i]? = some 0)
      ∧ (windowVals 60 xs i = [] → (medianScore xs)[i]? = some 0))
    ∧ ((mwsScore xs)[i]?.isSome
      ∧ (mwaScore xs)[i]?.isSome
      ∧ (medianScore xs)[i]?.isSome) := by
  refine ⟨⟨fun he => ?_, fun he => ?_, fun he => ?_⟩, ?_, ?_, ?_⟩
  · rw [mwsScore_getElem? xs i h, he]; norm_num
  · rw [mwaScore_getElem? xs i h, he]; norm_num
  · rw [medianScore_getElem? xs i h, he, medianOf_nil]
  · rw [mwsScore_getElem? xs i h]; rfl
  · rw [mwaScore_getElem? xs i h]; rfl
  · rw [medianScore_getElem? xs i h]; rfl

/-- Witness for C6 at the all-missing one-sample signal. -/
theorem no_gaps_witness :
    windowVals 85 [none] 0 = [] ∧ (mwsScore [none])[0]? = some 0 := by
  have hw : windowVals 85 [none] 0 = [] := by
    norm_num [windowVals, windowIdx, winLo, winHi, List.range',
      List.filterMap_cons]
  exact ⟨hw, (no_gaps [none] 0 (by norm_num)).1.1 hw⟩

/-- C1: the `mws` score is the window sum divided by the nominal width 85
(never by the clipped window size), and hence equals `v` exactly at every
interior position of a constant-`v` signal. -/
theorem mws_divisor_invariant :
    (∀ (xs : Series) (i : Nat), i < xs.length →
      (mwsScore xs)[i]? = some ((windowVals 85 xs i).sum / 85))
    ∧ ∀ (n i : Nat) (v : ℚ), 42 ≤ i → i + 42 < n →
      (mwsScore (List.replicate n (some v)))[i]? = some v := by
  refine ⟨fun xs i h => mwsScore_getElem? xs i h, fun n i v h42 hin => ?_⟩
  have hn : i < n := by omega
  rw [mwsScore_getElem? _ i (by simpa using hn),
    windowVals_replicate 85 n i v hn]
  have hlen : winHi 85 n i + 1 - winLo 85 i = 85 := by
    unfold winHi winLo
    omega
  rw [hlen, List.sum_replicate, nsmul_eq_mul]
  norm_num

/-- Witness for C1 at the length-85 constant-1 signal, center position. -/
theorem mws_divisor_invariant_witness :
    (mwsScore (List.replicate 85 (some 1)))[42]? = some 1 :=
  mws_divisor_invariant.2 85 42 1 (by norm_num) (by norm_num)

/-- The window span exactly as the spec words it (§4.1 step 1): for position
`i` the window spans `[i - floor(window/2), i + floor(window/2)]`, clipped at
the sequence boundaries (`Nat` subtraction clips at `0`).  Stated for
comparison with `windowIdx`, the embedding of the pandas indexer. -/
def specWindowIdx (w n i : Nat) : List Nat :=
  List.range' (i - w / 2) (min (n - 1) (i + w / 2) + 1 - (i - w / 2))

/-- C3 (amended): the per-algorithm widths are the fixed constants 85, 70 and
60, of which only 85 is odd; for odd widths the window is the specified clipped
centered span, while for even widths it is `[i - w/2, i + w/2 - 1]` clipped
(one shorter on the right); boundary windows shrink and always keep at least
the center position (min periods 1). -/
theorem window_geometry :
    ((∀ xs, mwsScore xs = fillna0 (seriesDiv (rollingSum 85 xs) 85))
      ∧ (∀ xs, mwaScore xs = fillna0 (rollingMean 70 xs))
      ∧ (∀ xs, medianScore xs = fillna0 (rollingMedian 60 xs))
      ∧ 85 % 2 = 1 ∧ 70 % 2 = 0 ∧ 60 % 2 = 0)
    ∧ (∀ w n i, w % 2 = 1 → windowIdx w n i = specWindowIdx w n i)
    ∧ (∀ w n i, w % 2 = 0 → 0 < w →
        windowIdx w n i =
          List.range' (i - w / 2)
            (min (n - 1) (i + w / 2 - 1) + 1 - (i - w / 2)))
    ∧ (∀ w n i, 0 < w → i < n → i ∈ windowIdx w n i) := by
  refine ⟨⟨fun _ => rfl, fun _ => rfl, fun _ => rfl, rfl, rfl, rfl⟩,
    fun w n i hodd => ?_, fun w n i heven hw => ?_, fun w n i hw hi => ?_⟩
  · unfold windowIdx specWindowIdx winLo winHi
    congr 1 <;> omega
  · unfold windowIdx winLo winHi
    congr 1 <;> omega
  · exact self_mem_windowIdx hw hi

/-- Witness for C3 at width 85, length 100, position 0. -/
theorem window_geometry_witness :
    windowIdx 85 100 0 = specWindowIdx 85 100 0 :=
  window_geometry.2.1 85 100 0 rfl

/-- Counterexample to C3 as stated: the `mwa` width 70 (and the median width
60) is even, not odd, and its centered window is not the symmetric specified
span. -/
theorem window_geometry_cex :
    70 % 2 = 0 ∧ 60 % 2 = 0 ∧ windowIdx 70 100 35 ≠ specWindowIdx 70 100 35 :=
  ⟨rfl, rfl, by decide⟩

/-- The `mws` score of a constant signal, pointwise: the clipped window size
times `v`, divided by the nominal 85. -/
theorem mwsScore_replicate_getD (n i : Nat) (v : ℚ) (h : i < n) :
    (mwsScore (List.replicate n (some v))).getD i 0 =
      ((winHi 85 n i + 1 - winLo 85 i : Nat) : ℚ) * v / 85 := by
  rw [List.getD_eq_getElem?_getD,
    mwsScore_getElem? _ i (by simpa using h),
    windowVals_replicate 85 n i v h, List.sum_replicate, nsmul_eq_mul]
  rfl

/-- C5 (amended): on a constant signal of value `v > 0` that is at least as
long as the window (`n ≥ 85`), the `mws` score strictly increases moving from
either boundary toward the interior across every boundary-clipped position:
rising to the right over the left-clipped region (`i < 42`), and rising to
the left over the right-clipped region (`n ≤ i + 43`). -/
theorem mws_edge_monotone (n : Nat) (v : ℚ) (hv : 0 < v) (hn : 85 ≤ n) :
    (∀ i, i < 42 →
      (mwsScore (List.replicate n (some v))).getD i 0 <
        (mwsScore (List.replicate n (some v))).getD (i + 1) 0)
    ∧ (∀ i, n ≤ i + 43 → i + 1 < n →
      (mwsScore (List.replicate n (some v))).getD (i + 1) 0 <
        (mwsScore (List.replicate n (some v))).getD i 0) := by
  constructor
  · intro i hi
    rw [mwsScore_replicate_getD n i v (by omega),
      mwsScore_replicate_getD n (i + 1) v (by omega)]
    have e1 : winHi 85 n i + 1 - winLo 85 i = i + 43 := by
      unfold winHi winLo; omega
    have e2 : winHi 85 n (i + 1) + 1 - winLo 85 (i + 1) = i + 44 := by
      unfold winHi winLo; omega
    rw [e1, e2]
    have hc : ((i + 43 : Nat) : ℚ) < ((i + 44 : Nat) : ℚ) :=
      Nat.cast_lt.mpr (by omega)
    exact div_lt_div_of_pos_right (by exact mul_lt_mul_of_pos_right hc hv)
      (by norm_num)
  · intro i h1 h2
    rw [mwsScore_replicate_getD n i v (by omega),
      mwsScore_replicate_getD n (i + 1) v (by omega)]
    have e1 : winHi 85 n (i + 1) + 1 - winLo 85 (i + 1) = n + 41 - i := by
      unfold winHi winLo; omega
    have e2 : winHi 85 n i + 1 - winLo 85 i = n + 42 - i := by
      unfold winHi winLo; omega
    rw [e1, e2]
    have hc : ((n + 41 - i : Nat) : ℚ) < ((n + 42 - i : Nat) : ℚ) :=
      Nat.cast_lt.mpr (by omega)
    exact div_lt_div_of_pos_right (by exact mul_lt_mul_of_pos_right hc hv)
      (by norm_num)

/-- Witness for C5 at the leftmost pair of the length-85 constant-1 signal. -/
theorem mws_edge_monotone_witness :
    (mwsScore (List.replicate 85 (some 1))).getD 0 0 <
      (mwsScore (List.replicate 85 (some 1))).getD 1 0 :=
  (mws_edge_monotone 85 1 one_pos (by norm_num)).1 0 (by norm_num)

/-- Counterexample to C5 as stated: in a constant-1 signal of length 2, the
window at position 0 is clipped by the left boundary (actual size 2 < the
nominal 85), yet the score does not increase toward the interior — both
positions see the same (whole-signal) window, so the scores are equal. -/
theorem mws_edge_monotone_cex :
    ¬ (∀ (n : Nat) (v : ℚ), 0 < v → ∀ i, i + 1 < n → i < 42 →
        winHi 85 n i + 1 - winLo 85 i < 85 →
        (mwsScore (List.replicate n (some v))).getD i 0 <
          (mwsScore (List.replicate n (some v))).getD (i + 1) 0) := by
  intro h
  have h2 := h 2 1 one_pos 0 (by norm_num) (by norm_num) (by decide)
  rw [mwsScore_replicate_getD 2 0 1 (by norm_num),
    mwsScore_replicate_getD 2 1 1 (by norm_num)] at h2
  have e0 : winHi 85 2 0 + 1 - winLo 85 0 = 2 := by decide
  have e1 : winHi 85 2 1 + 1 - winLo 85 1 = 2 := by decide
  rw [e0, e1] at h2
  exact lt_irrefl _ h2

/-- Reading inside a `replicate` with `getD` gives the replicated value. -/
theorem getD_replicate_of_lt (k j : Nat) (v d : ℚ) (h : j < k) :
    (List.replicate k v).getD j d = v := by
  simp [List.getD_eq_getElem?_getD, List.getElem?_replicate, h]

/-- Sorting a `replicate` returns it unchanged. -/
theorem insertionSort_replicate (k : Nat) (v : ℚ) :
    (List.replicate k v).insertionSort (· ≤ ·) = List.replicate k v :=
  List.eq_of_perm_of_sorted (List.perm_insertionSort _ _)
    (List.sorted_insertionSort _ _)
    (List.pairwise_replicate.mpr (Or.inr le_rfl))

/-- The median of a nonempty constant list is the constant. -/
theorem medianOf_replicate (k : Nat) (v : ℚ) (hk : 0 < k) :
    medianOf (List.replicate k v) = v := by
  unfold medianOf
  rw [insertionSort_replicate, List.length_replicate]
  rcases Nat.even_or_odd k with he | ho
  · have he' : k % 2 = 0 := Nat.even_iff.mp he
    rw [if_neg (by omega)]
    rw [getD_replicate_of_lt k _ v 0 (by omega),
      getD_replicate_of_lt k _ v 0 (by omega)]
    exact add_self_div_two v
  · rw [if_pos (Nat.odd_iff.mp ho), getD_replicate_of_lt k _ v 0 (by omega)]

/-- The median of any list holding `k ≥ 2` copies of `v` and one extra value
`M` is `v`: the outlier sorts to an end and the middle stays at `v`. -/
theorem medianOf_outlier (k : Nat) (v M : ℚ) (l : List ℚ)
    (hperm : List.Perm l (M :: List.replicate k v)) (hk : 2 ≤ k) :
    medianOf l = v := by
  have hlen : l.length = k + 1 := by simpa using hperm.length_eq
  rcases le_total v M with hvM | hMv
  · have hsorted : l.insertionSort (· ≤ ·) = List.replicate k v ++ [M] := by
      refine List.eq_of_perm_of_sorted
        (((List.perm_insertionSort _ l).trans hperm).trans
          (List.perm_append_singleton M (List.replicate k v)).symm)
        (List.sorted_insertionSort _ l) ?_
      rw [List.Sorted, List.pairwise_append]
      refine ⟨List.pairwise_replicate.mpr (Or.inr le_rfl),
        List.pairwise_singleton _ _, ?_⟩
      intro x hx y hy
      rw [List.eq_of_mem_replicate hx, List.mem_singleton.mp hy]
      exact hvM
    unfold medianOf
    rw [hsorted, hlen]
    have hmid : ∀ j < k, (List.replicate k v ++ [M]).getD j 0 = v := by
      intro j hj
      rw [List.getD_append _ _ _ _ (by simpa using hj),
        getD_replicate_of_lt k j v 0 hj]
    rcases Nat.even_or_odd k with he | ho
    · have he' : k % 2 = 0 := Nat.even_iff.mp he
      rw [if_pos (by omega), hmid _ (by omega)]
    · have ho' : k % 2 = 1 := Nat.odd_iff.mp ho
      rw [if_neg (by omega), hmid _ (by omega), hmid _ (by omega)]
      exact add_self_div_two v
  · have hsorted : l.insertionSort (· ≤ ·) = M :: List.replicate k v := by
      refine List.eq_of_perm_of_sorted
        ((List.perm_insertionSort _ l).trans hperm)
        (List.sorted_insertionSort _ l) ?_
      rw [List.sorted_cons]
      exact ⟨fun b hb => (List.eq_of_mem_replicate hb) ▸ hMv,
        List.pairwise_replicate.mpr (Or.inr le_rfl)⟩
    unfold medianOf
    rw [hsorted, hlen]
    have hmid : ∀ j, 1 ≤ j → j ≤ k → (M :: List.replicate k v).getD j 0 = v := by
      intro j h1 h2
      obtain ⟨j', rfl⟩ : ∃ j', j = j' + 1 := ⟨j - 1, by omega⟩
      rw [List.getD_cons_succ, getD_replicate_of_lt k j' v 0 (by omega)]
    rcases Nat.even_or_odd k with he | ho
    · have he' : k % 2 = 0 := Nat.even_iff.mp he
      rw [if_pos (by omega), hmid _ (by omega) (by omega)]
    · have ho' : k % 2 = 1 := Nat.odd_iff.mp ho
      rw [if_neg (by omega), hmid _ (by omega) (by omega),
        hmid _ (by omega) (by omega)]
      exact add_self_div_two v

/-- Window values over an otherwise-constant signal with one substituted
sample: each index maps to the outlier at `p` or to the constant. -/
theorem windowVals_set_outlier (w n p i : Nat) (v M : ℚ) (hp : p < n)
    (hi : i < n) :
    windowVals w ((List.replicate n (some v)).set p (some M)) i =
      (windowIdx w n i).map (fun j => if j = p then M else v) := by
  unfold windowVals
  have hlen : ((List.replicate n (some v)).set p (some M)).length = n := by
    simp
  rw [hlen]
  apply filterMap_eq_map_of
  intro j hj
  have hjn : j < n := mem_windowIdx_lt (by omega) hj
  by_cases hjp : j = p
  · subst hjp
    simp [List.getD_eq_getElem?_getD, List.getElem?_set, hjn]
  · rw [if_neg hjp, List.getD_eq_getElem?_getD, List.getElem?_set,
      if_neg (fun h : p = j => hjp h.symm), List.getElem?_replicate,
      if_pos hjn]
    rfl

/-- C7 (amended): the rolling median of width `w ≥ 3` over an otherwise
constant-`v` signal with a single outlier `M` substituted at `p` returns `v`
at every position whose boundary-clipped window still holds at least 3
samples (or misses the outlier entirely); a clipped window of fewer than 3
samples containing the outlier can leak it. -/
theorem median_outlier_insensitive (w n p i : Nat) (v M : ℚ)
    (hw : 3 ≤ w) (hp : p < n) (hi : i < n)
    (hcase : 3 ≤ (windowIdx w n i).length ∨ p ∉ windowIdx w n i) :
    (fillna0 (rollingMedian w
        ((List.replicate n (some v)).set p (some M))))[i]? = some v := by
  have hxlen : ((List.replicate n (some v)).set p (some M)).length = n := by
    simp
  rw [medianFilled_getElem? w _ i (by rw [hxlen]; exact hi),
    windowVals_set_outlier w n p i v M hp hi]
  by_cases hpmem : p ∈ windowIdx w n i
  · have h3 : 3 ≤ (windowIdx w n i).length :=
      hcase.resolve_right fun h => h hpmem
    have hnodup : (windowIdx w n i).Nodup := by
      unfold windowIdx
      exact List.nodup_range' _ _
    have hpermmap :=
      (List.perm_cons_erase hpmem).map (fun j => if j = p then M else v)
    rw [List.map_cons, if_pos rfl] at hpermmap
    have herase : ((windowIdx w n i).erase p).map
        (fun j => if j = p then M else v) =
        List.replicate (((windowIdx w n i).erase p).length) v := by
      apply map_eq_replicate_of
      intro j hj
      exact if_neg ((List.Nodup.mem_erase_iff hnodup).mp hj).1
    rw [herase, List.length_erase_of_mem hpmem] at hpermmap
    rw [medianOf_outlier ((windowIdx w n i).length - 1) v M _ hpermmap
      (by omega)]
  · have hmapconst : (windowIdx w n i).map (fun j => if j = p then M else v) =
        List.replicate (windowIdx w n i).length v := by
      apply map_eq_replicate_of
      intro j hj
      exact if_neg (fun hjp : j = p => hpmem (hjp ▸ hj))
    have hmem : i ∈ windowIdx w n i := self_mem_windowIdx (by omega) hi
    have hlenpos : 0 < (windowIdx w n i).length :=
      List.length_pos.mpr (List.ne_nil_of_mem hmem)
    rw [hmapconst, medianOf_replicate _ v hlenpos]

/-- Witness for C7 at width 60 (the median width in the code), an interior
outlier and an interior position. -/
theorem median_outlier_insensitive_witness :
    (fillna0 (rollingMedian 60
        ((List.replicate 100 (some (0:ℚ))).set 50 (some 100))))[50]? =
      some 0 :=
  median_outlier_insensitive 60 100 50 50 0 100 (by norm_num) (by norm_num)
    (by norm_num) (Or.inl (by decide))

/-- Counterexample to C7 as stated: with width 3 and the outlier 100 at
position 0 of an otherwise-zero length-4 signal, the clipped two-sample
window at position 0 yields the median (100 + 0) / 2 = 50, not the constant
0 — the claim fails at boundary positions whose clipped window has fewer
than 3 samples. -/
theorem median_outlier_cex :
    ¬ (∀ (w n p i : Nat) (v M : ℚ), 3 ≤ w → p < n → i < n →
        (fillna0 (rollingMedian w
            ((List.replicate n (some v)).set p (some M))))[i]? = some v) := by
  intro h
  have hx := h 3 4 0 0 0 100 (by norm_num) (by norm_num) (by norm_num)
  rw [medianFilled_getElem? 3 _ 0 (by simp),
    windowVals_set_outlier 3 4 0 0 0 100 (by norm_num) (by norm_num)] at hx
  have hidx : windowIdx 3 4 0 = [0, 1] := by decide
  rw [hidx] at hx
  norm_num at hx
  have h50 : medianOf [(100:ℚ), 0] = 50 := by
    norm_num [medianOf, List.insertionSort, List.orderedInsert]
  rw [h50] at hx
  norm_num at hx
